import Mathlib

/-
Verification of the schema declared in `src/orders/migrations/0001_initial.py`
(Django migration creating the `Order` and `OrderItem` tables of an
e-commerce order-management application).

The migration is purely declarative: it states column types, defaults,
nullability, uniqueness, and foreign-key on-delete actions.  The relational
store that enforces these declarations is not part of the repository, so the
store's operations (insert, update, delete) are modelled here from the spec's
words, parameterised by the column metadata translated verbatim from the
migration.
-/

namespace OrdersSchema

/-- Exact fixed-point decimal with two fraction digits, stored as an integer
count of hundredths.  Mirrors `models.DecimalField(decimal_places=2,
max_digits=10)` in the migration. -/
structure Decimal10_2 where
  cents : Int
deriving DecidableEq, Repr

/-- A decimal(10,2) value has at most 10 significant digits with exactly 2 of
them fraction digits, so its magnitude in hundredths is below `10^10`. -/
def Decimal10_2.valid (d : Decimal10_2) : Bool :=
  decide (d.cents.natAbs ≤ 9999999999)

/-- Declared `choices` of `Order.status` (migration, `Order.status` field). -/
def statusChoices : List String :=
  ["pending", "processing", "shipped", "delivered", "cancelled", "refunded"]

/-- Declared `default='pending'` of `Order.status`. -/
def statusDefault : String := "pending"

/-- Declared `max_length=20` of `Order.status`. -/
def statusMaxLength : Nat := 20

/-- Declared `max_length=50` of `Order.order_number`. -/
def orderNumberMaxLength : Nat := 50

/-- Declared `max_length=100` of `OrderItem.product_sku`. -/
def productSkuMaxLength : Nat := 100

/-- Declared `max_length=200` of `OrderItem.product_name`. -/
def productNameMaxLength : Nat := 200

/-- Declared `default=0` of `Order.tax_amount`, `shipping_amount`,
`discount_amount`. -/
def moneyDefault : Decimal10_2 := ⟨0⟩

/-- Upper bound of Django's `PositiveIntegerField` (`OrderItem.quantity`). -/
def quantityMax : Nat := 2147483647

/-- A row of the `Order` table, one field per column declared in the
migration.  Timestamps are abstract instants (`Nat`); foreign keys are row
identifiers; nullable columns are `Option`. -/
structure OrderRow where
  id : Nat
  order_number : String
  status : String
  order_date : Nat
  subtotal : Decimal10_2
  tax_amount : Decimal10_2
  shipping_amount : Decimal10_2
  discount_amount : Decimal10_2
  total : Decimal10_2
  shipping_address : Option String
  billing_address : Option String
  notes : Option String
  created_at : Nat
  updated_at : Nat
  created_by : Option Nat
  customer : Nat
  updated_by : Option Nat
deriving DecidableEq, Repr

/-- A row of the `OrderItem` table, one field per column declared in the
migration. -/
structure OrderItemRow where
  id : Nat
  product_name : String
  product_sku : Option String
  quantity : Nat
  unit_price : Decimal10_2
  total_price : Decimal10_2
  created_at : Nat
  updated_at : Nat
  order : Nat
deriving DecidableEq, Repr

/-- Column constraints of an `Order` row exactly as declared: string length
limits, the status enumeration, and decimal(10,2) bounds. -/
def OrderRow.validCols (r : OrderRow) : Bool :=
  decide (r.order_number.length ≤ orderNumberMaxLength) &&
  decide (r.status.length ≤ statusMaxLength) &&
  decide (r.status ∈ statusChoices) &&
  r.subtotal.valid && r.tax_amount.valid && r.shipping_amount.valid &&
  r.discount_amount.valid && r.total.valid

/-- Column constraints of an `OrderItem` row exactly as declared. -/
def OrderItemRow.validCols (it : OrderItemRow) : Bool :=
  decide (it.product_name.length ≤ productNameMaxLength) &&
  (match it.product_sku with
   | none => true
   | some s => decide (s.length ≤ productSkuMaxLength)) &&
  decide (it.quantity ≤ quantityMax) &&
  it.unit_price.valid && it.total_price.valid

/-- Database state: the two tables of this migration plus the referenced
`Customer` and `User` tables (declared elsewhere in the application, so only
their row identifiers matter here). -/
structure DB where
  customers : List Nat
  users : List Nat
  orders : List OrderRow
  order_items : List OrderItemRow
deriving DecidableEq, Repr

/-- The empty database, the state before any row is inserted. -/
def DB.empty : DB := ⟨[], [], [], []⟩

/-- A nullable foreign key is satisfied when it is null or its target row
exists. -/
def fkOk (tbl : List Nat) : Option Nat → Bool
  | none => true
  | some k => decide (k ∈ tbl)

/-- Foreign-key constraints of an `Order` row as declared: `customer` is a
mandatory reference to a Customer, `created_by` and `updated_by` are nullable
references to a User. -/
def OrderRow.fksOk (db : DB) (r : OrderRow) : Bool :=
  decide (r.customer ∈ db.customers) &&
  fkOk db.users r.created_by && fkOk db.users r.updated_by

/-- Values supplied by the application when creating an `Order`.  Columns with
a declared default or an auto timestamp may be omitted (`none` for the
optional value fields); nullable columns carry the value to store. -/
structure NewOrder where
  order_number : String
  status : Option String
  subtotal : Option Decimal10_2
  tax_amount : Option Decimal10_2
  shipping_amount : Option Decimal10_2
  discount_amount : Option Decimal10_2
  total : Option Decimal10_2
  shipping_address : Option String
  billing_address : Option String
  notes : Option String
  created_by : Option Nat
  customer : Nat
  updated_by : Option Nat
deriving DecidableEq, Repr

/-- Modelled from the spec: row construction at insert time.  Declared
defaults are applied (`status` defaults to `pending`; `tax_amount`,
`shipping_amount`, `discount_amount` default to 0), the `auto_now_add` and
`auto_now` timestamps (`order_date`, `created_at`, `updated_at`) are set to
the insertion instant, and creation is rejected (`none`) when a column with
neither a default nor a supplied value (`subtotal`, `total`) is missing. -/
def mkOrderRow (inp : NewOrder) (idv now : Nat) : Option OrderRow :=
  match inp.subtotal, inp.total with
  | some st, some tt =>
    some { id := idv
           order_number := inp.order_number
           status := inp.status.getD statusDefault
           order_date := now
           subtotal := st
           tax_amount := inp.tax_amount.getD moneyDefault
           shipping_amount := inp.shipping_amount.getD moneyDefault
           discount_amount := inp.discount_amount.getD moneyDefault
           total := tt
           shipping_address := inp.shipping_address
           billing_address := inp.billing_address
           notes := inp.notes
           created_at := now
           updated_at := now
           created_by := inp.created_by
           customer := inp.customer
           updated_by := inp.updated_by }
  | _, _ => none

/-- Modelled from the spec: the store accepts an `Order` insert only when the
column constraints hold, the foreign keys resolve, the `order_number` is not
already taken (declared `unique=True`), and the primary key is fresh.
`none` means the write is rejected and no state change happens. -/
def DB.insertOrder (db : DB) (inp : NewOrder) (idv now : Nat) : Option DB :=
  match mkOrderRow inp idv now with
  | none => none
  | some r =>
    if r.validCols && r.fksOk db &&
       decide (∀ o ∈ db.orders, o.order_number ≠ r.order_number) &&
       decide (∀ o ∈ db.orders, o.id ≠ idv) then
      some { db with orders := db.orders ++ [r] }
    else none

/-- Values supplied by the application when creating an `OrderItem`: product
data copied from the catalog at order time, quantity and prices.  No column
of `OrderItem` has a declared default, so all non-auto columns are given. -/
structure NewOrderItem where
  product_name : String
  product_sku : Option String
  quantity : Nat
  unit_price : Decimal10_2
  total_price : Decimal10_2
  order : Nat
deriving DecidableEq, Repr

/-- Row construction for an `OrderItem` insert: the supplied point-in-time
product copies and prices are stored verbatim, the `auto_now_add` and
`auto_now` timestamps are set to the insertion instant. -/
def mkOrderItemRow (inp : NewOrderItem) (idv now : Nat) : OrderItemRow :=
  { id := idv
    product_name := inp.product_name
    product_sku := inp.product_sku
    quantity := inp.quantity
    unit_price := inp.unit_price
    total_price := inp.total_price
    created_at := now
    updated_at := now
    order := inp.order }

/-- Modelled from the spec: the store accepts an `OrderItem` insert only when
the column constraints hold, the parent `Order` exists (mandatory foreign
key) and the primary key is fresh. -/
def DB.insertOrderItem (db : DB) (inp : NewOrderItem) (idv now : Nat) :
    Option DB :=
  if (mkOrderItemRow inp idv now).validCols &&
     decide (∃ o ∈ db.orders, o.id = inp.order) &&
     decide (∀ j ∈ db.order_items, j.id ≠ idv) then
    some { db with order_items := db.order_items ++ [mkOrderItemRow inp idv now] }
  else none

/-- Modelled from the spec: inserting a Customer row (its own columns live in
another app of the application and are irrelevant here). -/
def DB.insertCustomer (db : DB) (cid : Nat) : Option DB :=
  if decide (cid ∈ db.customers) then none
  else some { db with customers := db.customers ++ [cid] }

/-- Modelled from the spec: inserting a User row. -/
def DB.insertUser (db : DB) (uid : Nat) : Option DB :=
  if decide (uid ∈ db.users) then none
  else some { db with users := db.users ++ [uid] }

/-- An update to an `Order` row: `none` keeps a column, `some` overwrites it.
Only mutable columns appear: `order_number` is declared `editable=False`, and
`order_date` / `created_at` are `auto_now_add` (fixed at creation), so no
update carries them. -/
structure OrderUpdate where
  status : Option String
  subtotal : Option Decimal10_2
  tax_amount : Option Decimal10_2
  shipping_amount : Option Decimal10_2
  discount_amount : Option Decimal10_2
  total : Option Decimal10_2
  shipping_address : Option (Option String)
  billing_address : Option (Option String)
  notes : Option (Option String)
  created_by : Option (Option Nat)
  customer : Option Nat
  updated_by : Option (Option Nat)
deriving DecidableEq, Repr

/-- Modelled from the spec: applying an `OrderUpdate` to a row overwrites the
supplied mutable columns and refreshes the `auto_now` column `updated_at`;
`id`, `order_number`, `order_date` and `created_at` are carried over. -/
def applyOrderUpdate (o : OrderRow) (u : OrderUpdate) (now : Nat) : OrderRow :=
  { o with
    status := u.status.getD o.status
    subtotal := u.subtotal.getD o.subtotal
    tax_amount := u.tax_amount.getD o.tax_amount
    shipping_amount := u.shipping_amount.getD o.shipping_amount
    discount_amount := u.discount_amount.getD o.discount_amount
    total := u.total.getD o.total
    shipping_address := u.shipping_address.getD o.shipping_address
    billing_address := u.billing_address.getD o.billing_address
    notes := u.notes.getD o.notes
    created_by := u.created_by.getD o.created_by
    customer := u.customer.getD o.customer
    updated_by := u.updated_by.getD o.updated_by
    updated_at := now }

/-- Modelled from the spec: the store accepts an `Order` update only when the
target row exists and every updated row still satisfies the column and
foreign-key constraints. -/
def DB.updateOrder (db : DB) (oid : Nat) (u : OrderUpdate) (now : Nat) :
    Option DB :=
  if decide (∃ o ∈ db.orders, o.id = oid) &&
     db.orders.all (fun o =>
       o.id != oid ||
       ((applyOrderUpdate o u now).validCols &&
        (applyOrderUpdate o u now).fksOk db)) then
    some { db with
           orders := db.orders.map (fun o =>
             if o.id == oid then applyOrderUpdate o u now else o) }
  else none

/-- An update to an `OrderItem` row: `none` keeps a column, `some` overwrites
it. -/
structure OrderItemUpdate where
  product_name : Option String
  product_sku : Option (Option String)
  quantity : Option Nat
  unit_price : Option Decimal10_2
  total_price : Option Decimal10_2
  order : Option Nat
deriving DecidableEq, Repr

/-- Modelled from the spec: applying an `OrderItemUpdate` to a row. -/
def applyOrderItemUpdate (it : OrderItemRow) (u : OrderItemUpdate)
    (now : Nat) : OrderItemRow :=
  { it with
    product_name := u.product_name.getD it.product_name
    product_sku := u.product_sku.getD it.product_sku
    quantity := u.quantity.getD it.quantity
    unit_price := u.unit_price.getD it.unit_price
    total_price := u.total_price.getD it.total_price
    updated_at := now }

/-- Modelled from the spec: the store accepts an `OrderItem` update only when
the target row exists and every updated row still satisfies the column
constraints and its parent `Order` exists. -/
def DB.updateOrderItem (db : DB) (iid : Nat) (u : OrderItemUpdate)
    (now : Nat) : Option DB :=
  if decide (∃ it ∈ db.order_items, it.id = iid) &&
     db.order_items.all (fun it =>
       it.id != iid ||
       ((applyOrderItemUpdate it u now).validCols &&
        decide (∃ o ∈ db.orders, o.id = (applyOrderItemUpdate it u now).order))) then
    some { db with
           order_items := db.order_items.map (fun it =>
             if it.id == iid then applyOrderItemUpdate it u now else it) }
  else none

/-- Modelled from the spec: deleting an `OrderItem` removes just that row. -/
def DB.deleteOrderItem (db : DB) (iid : Nat) : DB :=
  { db with order_items := db.order_items.filter (fun it => it.id != iid) }

/-- Modelled from the spec: deleting an `Order` cascade-deletes its items
(declared `on_delete=CASCADE` on `OrderItem.order`). -/
def DB.deleteOrder (db : DB) (oid : Nat) : DB :=
  { db with
    orders := db.orders.filter (fun o => o.id != oid)
    order_items := db.order_items.filter (fun it => it.order != oid) }

/-- Identifiers of the orders that belong to a customer, the rows the
cascade of a customer deletion removes. -/
def DB.deadOrderIds (db : DB) (cid : Nat) : List Nat :=
  (db.orders.filter (fun o => o.customer == cid)).map (fun o => o.id)

/-- Modelled from the spec: deleting a Customer cascade-deletes its Orders
(declared `on_delete=CASCADE` on `Order.customer`) and transitively the items
of those orders. -/
def DB.deleteCustomer (db : DB) (cid : Nat) : DB :=
  { db with
    customers := db.customers.filter (fun c => c != cid)
    orders := db.orders.filter (fun o => o.customer != cid)
    order_items := db.order_items.filter
      (fun it => !(decide (it.order ∈ db.deadOrderIds cid))) }

/-- Null out the references an `Order` row holds to a deleted User, leaving
every other column untouched (declared `on_delete=SET_NULL` on
`Order.created_by` and `Order.updated_by`). -/
def nullifyUser (uid : Nat) (o : OrderRow) : OrderRow :=
  { o with
    created_by := if o.created_by == some uid then none else o.created_by
    updated_by := if o.updated_by == some uid then none else o.updated_by }

/-- Modelled from the spec: deleting a User removes the user row and sets the
`created_by` / `updated_by` columns of every order referencing it to null
rather than deleting the order. -/
def DB.deleteUser (db : DB) (uid : Nat) : DB :=
  { db with
    users := db.users.filter (fun u => u != uid)
    orders := db.orders.map (nullifyUser uid) }

/-- The operations the store offers on this schema. -/
inductive Op where
  | insertCustomer (cid : Nat)
  | insertUser (uid : Nat)
  | insertOrder (inp : NewOrder) (idv now : Nat)
  | insertOrderItem (inp : NewOrderItem) (idv now : Nat)
  | updateOrder (oid : Nat) (u : OrderUpdate) (now : Nat)
  | updateOrderItem (iid : Nat) (u : OrderItemUpdate) (now : Nat)
  | deleteCustomer (cid : Nat)
  | deleteUser (uid : Nat)
  | deleteOrder (oid : Nat)
  | deleteOrderItem (iid : Nat)
deriving DecidableEq, Repr

/-- Modelled from the spec: one store operation; `none` is a rejected write
(constraint violation). Deletes always succeed. -/
def DB.applyOp (db : DB) : Op → Option DB
  | .insertCustomer cid => db.insertCustomer cid
  | .insertUser uid => db.insertUser uid
  | .insertOrder inp idv now => db.insertOrder inp idv now
  | .insertOrderItem inp idv now => db.insertOrderItem inp idv now
  | .updateOrder oid u now => db.updateOrder oid u now
  | .updateOrderItem iid u now => db.updateOrderItem iid u now
  | .deleteCustomer cid => some (db.deleteCustomer cid)
  | .deleteUser uid => some (db.deleteUser uid)
  | .deleteOrder oid => some (db.deleteOrder oid)
  | .deleteOrderItem iid => some (db.deleteOrderItem iid)

/-- Attempting one operation: a rejected write leaves the state unchanged. -/
def DB.attempt (db : DB) (op : Op) : DB :=
  (db.applyOp op).getD db

/-- Running a sequence of operations; `none` as soon as one is rejected. -/
def DB.runOps : DB → List Op → Option DB
  | db, [] => some db
  | db, op :: ops =>
    match db.applyOp op with
    | none => none
    | some db2 => DB.runOps db2 ops

/-- Referential integrity: every order references an existing customer and
every item references an existing order. -/
def DB.refIntact (db : DB) : Prop :=
  (∀ o ∈ db.orders, o.customer ∈ db.customers) ∧
  (∀ it ∈ db.order_items, ∃ o ∈ db.orders, o.id = it.order)

/-- All stored rows satisfy their declared column constraints. -/
def DB.colsOk (db : DB) : Prop :=
  (∀ o ∈ db.orders, o.validCols = true) ∧
  (∀ it ∈ db.order_items, it.validCols = true)

/-- The store invariant: referential integrity plus column constraints. -/
def DB.inv (db : DB) : Prop :=
  db.refIntact ∧ db.colsOk

instance (db : DB) : Decidable db.refIntact := by
  unfold DB.refIntact; infer_instance

instance (db : DB) : Decidable db.colsOk := by
  unfold DB.colsOk; infer_instance

instance (db : DB) : Decidable db.inv := by
  unfold DB.inv; infer_instance

/-- Modelled from the spec: a row of the external product catalog.  The
catalog is not a table of this migration; an `OrderItem` stores point-in-time
copies of its data rather than a live reference. -/
structure ProductRow where
  sku : String
  name : String
  price : Decimal10_2
deriving DecidableEq, Repr

/-- The database of this migration together with the external product
catalog. -/
structure World where
  db : DB
  catalog : List ProductRow
deriving DecidableEq, Repr

/-- Modelled from the spec: a later change to the product catalog (price or
name change via upsert, or removal of a product). -/
inductive CatalogOp where
  | upsert (p : ProductRow)
  | remove (sku : String)
deriving DecidableEq, Repr

/-- Applying a catalog change touches only the catalog. -/
def World.applyCatalogOp (w : World) : CatalogOp → World
  | .upsert p => { w with catalog := p :: w.catalog.filter (fun q => q.sku != p.sku) }
  | .remove sku => { w with catalog := w.catalog.filter (fun q => q.sku != sku) }

/-- Running a sequence of catalog changes. -/
def World.runCatalogOps : World → List CatalogOp → World
  | w, [] => w
  | w, c :: cs => World.runCatalogOps (w.applyCatalogOp c) cs

/-! Concrete sample data, used to check the theorems on closed inputs. -/

/-- A sample stored order. -/
def sampleOrder : OrderRow :=
  { id := 1
    order_number := "ORD-1"
    status := "pending"
    order_date := 0
    subtotal := ⟨10000⟩
    tax_amount := ⟨500⟩
    shipping_amount := ⟨0⟩
    discount_amount := ⟨0⟩
    total := ⟨10500⟩
    shipping_address := none
    billing_address := none
    notes := none
    created_at := 0
    updated_at := 0
    created_by := some 9
    customer := 1
    updated_by := none }

/-- A sample stored order item, belonging to `sampleOrder`. -/
def sampleItem : OrderItemRow :=
  { id := 1
    product_name := "Widget"
    product_sku := some "W-1"
    quantity := 2
    unit_price := ⟨5000⟩
    total_price := ⟨10000⟩
    created_at := 0
    updated_at := 0
    order := 1 }

/-- A sample database: one customer, one user, one order with one item. -/
def sampleDB : DB :=
  { customers := [1]
    users := [9]
    orders := [sampleOrder]
    order_items := [sampleItem] }

/-- Creation input whose order number collides with `sampleOrder`. -/
def dupNewOrder : NewOrder :=
  { order_number := "ORD-1"
    status := none
    subtotal := some ⟨2000⟩
    tax_amount := none
    shipping_amount := none
    discount_amount := none
    total := some ⟨2000⟩
    shipping_address := none
    billing_address := none
    notes := none
    created_by := none
    customer := 1
    updated_by := none }

/-- Creation input with a fresh order number. -/
def freshNewOrder : NewOrder :=
  { dupNewOrder with order_number := "ORD-2" }

/-- Creation input carrying a status outside the declared enumeration. -/
def badStatusNewOrder : NewOrder :=
  { freshNewOrder with status := some "bogus" }

/-- Creation input missing the defaultless `subtotal` and `total` columns. -/
def noTotalsNewOrder : NewOrder :=
  { freshNewOrder with subtotal := none, total := none }

/-- Creation input referencing a customer that does not exist. -/
def orphanNewOrder : NewOrder :=
  { freshNewOrder with customer := 77 }

/-- The row `mkOrderRow freshNewOrder 2 3` builds. -/
def sampleOrder2 : OrderRow :=
  { id := 2
    order_number := "ORD-2"
    status := "pending"
    order_date := 3
    subtotal := ⟨2000⟩
    tax_amount := ⟨0⟩
    shipping_amount := ⟨0⟩
    discount_amount := ⟨0⟩
    total := ⟨2000⟩
    shipping_address := none
    billing_address := none
    notes := none
    created_at := 3
    updated_at := 3
    created_by := none
    customer := 1
    updated_by := none }

/-- Item creation input referencing order 2. -/
def sampleNewItem : NewOrderItem :=
  { product_name := "Widget"
    product_sku := some "W-1"
    quantity := 2
    unit_price := ⟨5000⟩
    total_price := ⟨10000⟩
    order := 2 }

/-- The stored row `mkOrderItemRow sampleNewItem 1 4`. -/
def sampleItem2 : OrderItemRow :=
  { id := 1
    product_name := "Widget"
    product_sku := some "W-1"
    quantity := 2
    unit_price := ⟨5000⟩
    total_price := ⟨10000⟩
    created_at := 4
    updated_at := 4
    order := 2 }

/-- A sample operation sequence from the empty database. -/
def sampleOps : List Op :=
  [Op.insertCustomer 1, Op.insertUser 9,
   Op.insertOrder freshNewOrder 2 3,
   Op.insertOrderItem sampleNewItem 1 4]

/-- The database `sampleOps` reaches from the empty database. -/
def sampleDB2 : DB :=
  { customers := [1]
    users := [9]
    orders := [sampleOrder2]
    order_items := [sampleItem2] }

/-- The database obtained by inserting `freshNewOrder` into `sampleDB`. -/
def sampleDB3 : DB :=
  { customers := [1]
    users := [9]
    orders := [sampleOrder, sampleOrder2]
    order_items := [sampleItem] }

/-- A sample update: new status, new notes, new updating user. -/
def sampleUpdate : OrderUpdate :=
  { status := some "shipped"
    subtotal := none
    tax_amount := none
    shipping_amount := none
    discount_amount := none
    total := none
    shipping_address := none
    billing_address := none
    notes := some (some "rush")
    created_by := none
    customer := none
    updated_by := some (some 9) }

/-- The row `sampleOrder` becomes under `sampleUpdate` at instant 5. -/
def sampleOrder4 : OrderRow :=
  { sampleOrder with
    status := "shipped"
    notes := some "rush"
    updated_by := some 9
    updated_at := 5 }

/-- An update carrying a status outside the declared enumeration. -/
def badStatusUpdate : OrderUpdate :=
  { sampleUpdate with status := some "bogus" }

/-- The database obtained by applying `sampleUpdate` to order 1 of
`sampleDB`. -/
def sampleDB4 : DB :=
  { customers := [1]
    users := [9]
    orders := [sampleOrder4]
    order_items := [sampleItem] }

/-! Small facts about the row transformers: which columns they keep. -/

theorem applyOrderUpdate_id (o : OrderRow) (u : OrderUpdate) (now : Nat) :
    (applyOrderUpdate o u now).id = o.id := rfl

theorem applyOrderUpdate_order_number (o : OrderRow) (u : OrderUpdate)
    (now : Nat) : (applyOrderUpdate o u now).order_number = o.order_number :=
  rfl

theorem applyOrderUpdate_order_date (o : OrderRow) (u : OrderUpdate)
    (now : Nat) : (applyOrderUpdate o u now).order_date = o.order_date := rfl

theorem applyOrderUpdate_created_at (o : OrderRow) (u : OrderUpdate)
    (now : Nat) : (applyOrderUpdate o u now).created_at = o.created_at := rfl

theorem applyOrderUpdate_status (o : OrderRow) (u : OrderUpdate)
    (now : Nat) : (applyOrderUpdate o u now).status = u.status.getD o.status :=
  rfl

theorem applyOrderItemUpdate_id (it : OrderItemRow) (u : OrderItemUpdate)
    (now : Nat) : (applyOrderItemUpdate it u now).id = it.id := rfl

theorem nullifyUser_customer (uid : Nat) (o : OrderRow) :
    (nullifyUser uid o).customer = o.customer := rfl

theorem nullifyUser_id (uid : Nat) (o : OrderRow) :
    (nullifyUser uid o).id = o.id := rfl

theorem nullifyUser_validCols (uid : Nat) (o : OrderRow) :
    (nullifyUser uid o).validCols = o.validCols := rfl

/-! Preservation of the store invariant by each operation. -/

theorem inv_insertCustomer {db db' : DB} {cid : Nat} (h : db.inv)
    (hs : db.insertCustomer cid = some db') : db'.inv := by
  unfold DB.insertCustomer at hs
  split at hs
  · cases hs
  · obtain ⟨⟨hoc, hio⟩, hcov, hciv⟩ := h
    simp only [Option.some.injEq] at hs
    subst hs
    exact ⟨⟨fun o ho => List.mem_append_left _ (hoc o ho), hio⟩, hcov, hciv⟩

theorem inv_insertUser {db db' : DB} {uid : Nat} (h : db.inv)
    (hs : db.insertUser uid = some db') : db'.inv := by
  unfold DB.insertUser at hs
  split at hs
  · cases hs
  · simp only [Option.some.injEq] at hs
    subst hs
    exact h

theorem inv_insertOrder {db db' : DB} {inp : NewOrder} {idv now : Nat}
    (h : db.inv) (hs : db.insertOrder inp idv now = some db') : db'.inv := by
  unfold DB.insertOrder at hs
  cases hr : mkOrderRow inp idv now with
  | none => rw [hr] at hs; cases hs
  | some r =>
    rw [hr] at hs
    simp only [] at hs
    by_cases hcond : (r.validCols && r.fksOk db &&
        decide (∀ o ∈ db.orders, o.order_number ≠ r.order_number) &&
        decide (∀ o ∈ db.orders, o.id ≠ idv)) = true
    case neg => rw [if_neg hcond] at hs; cases hs
    case pos =>
      rw [if_pos hcond] at hs
      simp only [Option.some.injEq] at hs
      subst hs
      simp only [Bool.and_eq_true, decide_eq_true_eq] at hcond
      obtain ⟨⟨⟨hvalid, hfks⟩, _⟩, _⟩ := hcond
      unfold OrderRow.fksOk at hfks
      simp only [Bool.and_eq_true, decide_eq_true_eq] at hfks
      obtain ⟨⟨hcust, _⟩, _⟩ := hfks
      obtain ⟨⟨hoc, hio⟩, hcov, hciv⟩ := h
      refine ⟨⟨?_, ?_⟩, ?_, ?_⟩
      · intro o ho
        rcases List.mem_append.1 ho with ho | ho
        · exact hoc o ho
        · rw [List.mem_singleton] at ho
          subst ho
          exact hcust
      · intro it hit
        obtain ⟨o, ho, hid⟩ := hio it hit
        exact ⟨o, List.mem_append_left _ ho, hid⟩
      · intro o ho
        rcases List.mem_append.1 ho with ho | ho
        · exact hcov o ho
        · rw [List.mem_singleton] at ho
          subst ho
          exact hvalid
      · exact hciv

theorem inv_insertOrderItem {db db' : DB} {inp : NewOrderItem}
    {idv now : Nat} (h : db.inv)
    (hs : db.insertOrderItem inp idv now = some db') : db'.inv := by
  unfold DB.insertOrderItem at hs
  split at hs
  case isFalse => cases hs
  case isTrue hcond =>
    simp only [Option.some.injEq] at hs
    subst hs
    simp only [Bool.and_eq_true, decide_eq_true_eq] at hcond
    obtain ⟨⟨hvalid, hparent⟩, _⟩ := hcond
    obtain ⟨⟨hoc, hio⟩, hcov, hciv⟩ := h
    refine ⟨⟨hoc, ?_⟩, hcov, ?_⟩
    · intro it hit
      rcases List.mem_append.1 hit with hit | hit
      · exact hio it hit
      · rw [List.mem_singleton] at hit
        subst hit
        exact hparent
    · intro it hit
      rcases List.mem_append.1 hit with hit | hit
      · exact hciv it hit
      · rw [List.mem_singleton] at hit
        subst hit
        exact hvalid

theorem inv_updateOrder {db db' : DB} {oid : Nat} {u : OrderUpdate}
    {now : Nat} (h : db.inv) (hs : db.updateOrder oid u now = some db') :
    db'.inv := by
  unfold DB.updateOrder at hs
  split at hs
  case isFalse => cases hs
  case isTrue hcond =>
    simp only [Option.some.injEq] at hs
    subst hs
    simp only [Bool.and_eq_true, decide_eq_true_eq, List.all_eq_true] at hcond
    obtain ⟨_, hall⟩ := hcond
    obtain ⟨⟨hoc, hio⟩, hcov, hciv⟩ := h
    refine ⟨⟨?_, ?_⟩, ?_, ?_⟩
    · intro o ho
      rw [List.mem_map] at ho
      obtain ⟨o0, ho0, rfl⟩ := ho
      cases hb : (o0.id == oid) with
      | false => simpa [hb] using hoc o0 ho0
      | true =>
        have hrow := hall o0 ho0
        simp only [bne, hb, Bool.not_true, Bool.false_or,
          Bool.and_eq_true] at hrow
        have hfks := hrow.2
        unfold OrderRow.fksOk at hfks
        simp only [Bool.and_eq_true, decide_eq_true_eq] at hfks
        simpa [hb] using hfks.1.1
    · intro it hit
      obtain ⟨o, ho, hid⟩ := hio it hit
      refine ⟨if o.id == oid then applyOrderUpdate o u now else o,
        List.mem_map_of_mem _ ho, ?_⟩
      cases hb : (o.id == oid) with
      | false => simpa [hb] using hid
      | true => simpa [hb, applyOrderUpdate_id] using hid
    · intro o ho
      rw [List.mem_map] at ho
      obtain ⟨o0, ho0, rfl⟩ := ho
      cases hb : (o0.id == oid) with
      | false => simpa [hb] using hcov o0 ho0
      | true =>
        have hrow := hall o0 ho0
        simp only [bne, hb, Bool.not_true, Bool.false_or,
          Bool.and_eq_true] at hrow
        simpa [hb] using hrow.1
    · exact hciv

theorem inv_updateOrderItem {db db' : DB} {iid : Nat} {u : OrderItemUpdate}
    {now : Nat} (h : db.inv) (hs : db.updateOrderItem iid u now = some db') :
    db'.inv := by
  unfold DB.updateOrderItem at hs
  split at hs
  case isFalse => cases hs
  case isTrue hcond =>
    simp only [Option.some.injEq] at hs
    subst hs
    simp only [Bool.and_eq_true, decide_eq_true_eq, List.all_eq_true] at hcond
    obtain ⟨_, hall⟩ := hcond
    obtain ⟨⟨hoc, hio⟩, hcov, hciv⟩ := h
    refine ⟨⟨hoc, ?_⟩, hcov, ?_⟩
    · intro it hit
      rw [List.mem_map] at hit
      obtain ⟨it0, hit0, rfl⟩ := hit
      cases hb : (it0.id == iid) with
      | false => simpa [hb] using hio it0 hit0
      | true =>
        have hrow := hall it0 hit0
        simp only [bne, hb, Bool.not_true, Bool.false_or, Bool.and_eq_true,
          decide_eq_true_eq] at hrow
        simpa [hb] using hrow.2
    · intro it hit
      rw [List.mem_map] at hit
      obtain ⟨it0, hit0, rfl⟩ := hit
      cases hb : (it0.id == iid) with
      | false => simpa [hb] using hciv it0 hit0
      | true =>
        have hrow := hall it0 hit0
        simp only [bne, hb, Bool.not_true, Bool.false_or, Bool.and_eq_true,
          decide_eq_true_eq] at hrow
        simpa [hb] using hrow.1

theorem inv_deleteOrderItem {db : DB} {iid : Nat} (h : db.inv) :
    (db.deleteOrderItem iid).inv := by
  obtain ⟨⟨hoc, hio⟩, hcov, hciv⟩ := h
  unfold DB.deleteOrderItem
  refine ⟨⟨hoc, ?_⟩, hcov, ?_⟩
  · intro it hit
    rw [List.mem_filter] at hit
    exact hio it hit.1
  · intro it hit
    rw [List.mem_filter] at hit
    exact hciv it hit.1

theorem inv_deleteOrder {db : DB} {oid : Nat} (h : db.inv) :
    (db.deleteOrder oid).inv := by
  obtain ⟨⟨hoc, hio⟩, hcov, hciv⟩ := h
  unfold DB.deleteOrder
  refine ⟨⟨?_, ?_⟩, ?_, ?_⟩
  · intro o ho
    rw [List.mem_filter] at ho
    exact hoc o ho.1
  · intro it hit
    rw [List.mem_filter] at hit
    obtain ⟨hit1, hit2⟩ := hit
    obtain ⟨o, ho, hid⟩ := hio it hit1
    refine ⟨o, List.mem_filter.2 ⟨ho, ?_⟩, hid⟩
    rw [hid]
    exact hit2
  · intro o ho
    rw [List.mem_filter] at ho
    exact hcov o ho.1
  · intro it hit
    rw [List.mem_filter] at hit
    exact hciv it hit.1

theorem refIntact_deleteCustomer {db : DB} {cid : Nat} (h : db.refIntact) :
    (db.deleteCustomer cid).refIntact := by
  obtain ⟨hoc, hio⟩ := h
  unfold DB.deleteCustomer
  refine ⟨?_, ?_⟩
  · intro o ho
    rw [List.mem_filter] at ho
    obtain ⟨ho1, ho2⟩ := ho
    exact List.mem_filter.2 ⟨hoc o ho1, ho2⟩
  · intro it hit
    rw [List.mem_filter] at hit
    obtain ⟨hit1, hit2⟩ := hit
    simp only [Bool.not_eq_true', decide_eq_false_iff_not] at hit2
    obtain ⟨o, ho, hid⟩ := hio it hit1
    have hne : o.customer ≠ cid := by
      intro hcust
      apply hit2
      unfold DB.deadOrderIds
      rw [List.mem_map]
      refine ⟨o, List.mem_filter.2 ⟨ho, ?_⟩, hid⟩
      rw [hcust]
      exact beq_self_eq_true cid
    exact ⟨o, List.mem_filter.2 ⟨ho, bne_iff_ne.2 hne⟩, hid⟩

theorem inv_deleteCustomer {db : DB} {cid : Nat} (h : db.inv) :
    (db.deleteCustomer cid).inv := by
  obtain ⟨hri, hcov, hciv⟩ := h
  refine ⟨refIntact_deleteCustomer hri, ?_, ?_⟩
  · intro o ho
    simp only [DB.deleteCustomer, List.mem_filter] at ho
    exact hcov o ho.1
  · intro it hit
    simp only [DB.deleteCustomer, List.mem_filter] at hit
    exact hciv it hit.1

theorem inv_deleteUser {db : DB} {uid : Nat} (h : db.inv) :
    (db.deleteUser uid).inv := by
  obtain ⟨⟨hoc, hio⟩, hcov, hciv⟩ := h
  unfold DB.deleteUser
  refine ⟨⟨?_, ?_⟩, ?_, ?_⟩
  · intro o ho
    rw [List.mem_map] at ho
    obtain ⟨o0, ho0, rfl⟩ := ho
    rw [nullifyUser_customer]
    exact hoc o0 ho0
  · intro it hit
    obtain ⟨o, ho, hid⟩ := hio it hit
    exact ⟨nullifyUser uid o, List.mem_map_of_mem _ ho,
      by rw [nullifyUser_id]; exact hid⟩
  · intro o ho
    rw [List.mem_map] at ho
    obtain ⟨o0, ho0, rfl⟩ := ho
    rw [nullifyUser_validCols]
    exact hcov o0 ho0
  · exact hciv

theorem inv_applyOp {db db' : DB} {op : Op} (h : db.inv)
    (hs : db.applyOp op = some db') : db'.inv := by
  cases op with
  | insertCustomer cid => exact inv_insertCustomer h hs
  | insertUser uid => exact inv_insertUser h hs
  | insertOrder inp idv now => exact inv_insertOrder h hs
  | insertOrderItem inp idv now => exact inv_insertOrderItem h hs
  | updateOrder oid u now => exact inv_updateOrder h hs
  | updateOrderItem iid u now => exact inv_updateOrderItem h hs
  | deleteCustomer cid =>
    simp only [DB.applyOp, Option.some.injEq] at hs
    subst hs
    exact inv_deleteCustomer h
  | deleteUser uid =>
    simp only [DB.applyOp, Option.some.injEq] at hs
    subst hs
    exact inv_deleteUser h
  | deleteOrder oid =>
    simp only [DB.applyOp, Option.some.injEq] at hs
    subst hs
    exact inv_deleteOrder h
  | deleteOrderItem iid =>
    simp only [DB.applyOp, Option.some.injEq] at hs
    subst hs
    exact inv_deleteOrderItem h

theorem inv_runOps : ∀ (ops : List Op) (db db' : DB), db.inv →
    DB.runOps db ops = some db' → db'.inv
  | [], db, db', h, hs => by
    unfold DB.runOps at hs
    simp only [Option.some.injEq] at hs
    subst hs
    exact h
  | op :: ops, db, db', h, hs => by
    unfold DB.runOps at hs
    cases ha : db.applyOp op with
    | none => rw [ha] at hs; cases hs
    | some db2 =>
      rw [ha] at hs
      exact inv_runOps ops db2 db' (inv_applyOp h ha) hs

theorem empty_inv : DB.empty.inv := by decide

/-- Columns of a successfully built `Order` row in terms of the creation
input: literal columns are copied, columns with a declared default fall back
to it. -/
theorem mkOrderRow_eq {inp : NewOrder} {idv now : Nat} {r : OrderRow}
    (h : mkOrderRow inp idv now = some r) :
    r.order_number = inp.order_number ∧
    r.status = inp.status.getD statusDefault ∧
    r.tax_amount = inp.tax_amount.getD moneyDefault ∧
    r.shipping_amount = inp.shipping_amount.getD moneyDefault ∧
    r.discount_amount = inp.discount_amount.getD moneyDefault ∧
    r.customer = inp.customer := by
  unfold mkOrderRow at h
  rcases hsub : inp.subtotal with _ | st <;> rcases htot : inp.total with _ | tt <;>
    rw [hsub, htot] at h
  · cases h
  · cases h
  · cases h
  · simp only [Option.some.injEq] at h
    subst h
    exact ⟨rfl, rfl, rfl, rfl, rfl, rfl⟩

/-- The store rejects an `Order` insert whose order number is already
taken. -/
theorem insertOrder_dup_none {db : DB} {inp : NewOrder} {idv now : Nat}
    (hdup : ∃ o ∈ db.orders, o.order_number = inp.order_number) :
    db.insertOrder inp idv now = none := by
  obtain ⟨o, ho, hnum⟩ := hdup
  unfold DB.insertOrder
  cases hr : mkOrderRow inp idv now with
  | none => rfl
  | some r =>
    simp only []
    have hrn := (mkOrderRow_eq hr).1
    have hc : ¬((r.validCols && r.fksOk db &&
        decide (∀ o2 ∈ db.orders, o2.order_number ≠ r.order_number) &&
        decide (∀ o2 ∈ db.orders, o2.id ≠ idv)) = true) := by
      intro hcond
      simp only [Bool.and_eq_true, decide_eq_true_eq] at hcond
      exact hcond.1.2 o ho (hnum.trans hrn.symm)
    rw [if_neg hc]

/-- The store rejects an `Order` insert whose mandatory `customer` foreign
key does not resolve. -/
theorem insertOrder_missing_customer_none {db : DB} {inp : NewOrder}
    {idv now : Nat} (hmiss : inp.customer ∉ db.customers) :
    db.insertOrder inp idv now = none := by
  unfold DB.insertOrder
  cases hr : mkOrderRow inp idv now with
  | none => rfl
  | some r =>
    simp only []
    have hrc := (mkOrderRow_eq hr).2.2.2.2.2
    have hc : ¬((r.validCols && r.fksOk db &&
        decide (∀ o2 ∈ db.orders, o2.order_number ≠ r.order_number) &&
        decide (∀ o2 ∈ db.orders, o2.id ≠ idv)) = true) := by
      intro hcond
      simp only [Bool.and_eq_true] at hcond
      have hfks := hcond.1.1.2
      unfold OrderRow.fksOk at hfks
      simp only [Bool.and_eq_true, decide_eq_true_eq] at hfks
      rw [hrc] at hfks
      exact hmiss hfks.1.1
    rw [if_neg hc]

/-- The store rejects an `Order` update that writes a status outside the
declared enumeration: whether or not the targeted row exists, the update
returns `none`. -/
theorem updateOrder_invalid_status_none {db : DB} {oid : Nat}
    {u : OrderUpdate} {now : Nat} {s : String} (hst : u.status = some s)
    (hbad : s ∉ statusChoices) : db.updateOrder oid u now = none := by
  unfold DB.updateOrder
  have hc : ¬((decide (∃ o ∈ db.orders, o.id = oid) &&
      db.orders.all (fun o =>
        o.id != oid ||
        ((applyOrderUpdate o u now).validCols &&
         (applyOrderUpdate o u now).fksOk db))) = true) := by
    intro hcond
    simp only [Bool.and_eq_true, decide_eq_true_eq, List.all_eq_true] at hcond
    obtain ⟨⟨o, ho, hid⟩, hall⟩ := hcond
    have hrow := hall o ho
    have hbne : (o.id != oid) = false := by
      rw [hid]
      exact bne_self_eq_false oid
    rw [hbne, Bool.false_or] at hrow
    simp only [Bool.and_eq_true] at hrow
    have hvalid := hrow.1
    unfold OrderRow.validCols at hvalid
    simp only [Bool.and_eq_true, decide_eq_true_eq] at hvalid
    have hs : (applyOrderUpdate o u now).status = s := by
      rw [applyOrderUpdate_status, hst]
      rfl
    rw [hs] at hvalid
    exact hbad hvalid.1.1.1.1.1.2
  rw [if_neg hc]

/-- C1: inserting an Order whose `order_number` equals that of an existing
Order is rejected by the store (`none`) and attempting it leaves the database
state unchanged; an insert with a fresh `order_number` succeeds with respect
to this constraint (it goes through whenever the remaining declared
constraints are also met). -/
theorem order_number_unique_enforced (db : DB) (inp : NewOrder)
    (idv now : Nat) :
    ((∃ o ∈ db.orders, o.order_number = inp.order_number) →
      db.insertOrder inp idv now = none ∧
      db.attempt (Op.insertOrder inp idv now) = db) ∧
    ((∀ o ∈ db.orders, o.order_number ≠ inp.order_number) →
      (∀ o ∈ db.orders, o.id ≠ idv) →
      ∀ r, mkOrderRow inp idv now = some r →
        r.validCols = true → r.fksOk db = true →
        (db.insertOrder inp idv now).isSome = true) := by
  constructor
  · intro hdup
    have hnone : db.insertOrder inp idv now = none := insertOrder_dup_none hdup
    refine ⟨hnone, ?_⟩
    unfold DB.attempt DB.applyOp
    simp only []
    rw [hnone]
    rfl
  · intro hfresh hfid r hr hvalid hfks
    unfold DB.insertOrder
    rw [hr]
    simp only []
    have h1 : ∀ o ∈ db.orders, o.order_number ≠ r.order_number := by
      intro o ho
      rw [(mkOrderRow_eq hr).1]
      exact hfresh o ho
    rw [if_pos]
    · rfl
    · simp only [Bool.and_eq_true, decide_eq_true_eq]
      exact ⟨⟨⟨hvalid, hfks⟩, h1⟩, hfid⟩

/-- Witness for C1 on concrete data: a colliding insert is rejected and
changes nothing, a fresh one succeeds. -/
theorem order_number_unique_enforced_witness :
    (sampleDB.insertOrder dupNewOrder 2 3 = none ∧
      sampleDB.attempt (Op.insertOrder dupNewOrder 2 3) = sampleDB) ∧
    (sampleDB.insertOrder freshNewOrder 2 3).isSome = true :=
  ⟨(order_number_unique_enforced sampleDB dupNewOrder 2 3).1
      ⟨sampleOrder, by decide, rfl⟩,
   (order_number_unique_enforced sampleDB freshNewOrder 2 3).2
      (by decide) (by decide) sampleOrder2 (by decide) (by decide) (by decide)⟩

/-- C2: deleting a Customer removes the customer, every Order referencing it,
and every OrderItem of those Orders; when the database was referentially
intact before, it is referentially intact afterwards, so no orphaned Order or
OrderItem remains. -/
theorem customer_delete_cascades (db : DB) (cid : Nat) :
    cid ∉ (db.deleteCustomer cid).customers ∧
    (∀ o ∈ (db.deleteCustomer cid).orders, o.customer ≠ cid) ∧
    (∀ it ∈ db.order_items, ∀ o ∈ db.orders,
      o.id = it.order → o.customer = cid →
      it ∉ (db.deleteCustomer cid).order_items) ∧
    (db.refIntact → (db.deleteCustomer cid).refIntact) := by
  refine ⟨?_, ?_, ?_, fun h => refIntact_deleteCustomer h⟩
  · intro hmem
    simp only [DB.deleteCustomer, List.mem_filter, bne_self_eq_false] at hmem
    exact absurd hmem.2 (by simp)
  · intro o ho
    simp only [DB.deleteCustomer, List.mem_filter] at ho
    exact bne_iff_ne.1 ho.2
  · intro it hit o ho hid hcust hmem
    simp only [DB.deleteCustomer, List.mem_filter, Bool.not_eq_true',
      decide_eq_false_iff_not] at hmem
    apply hmem.2
    unfold DB.deadOrderIds
    rw [List.mem_map]
    refine ⟨o, List.mem_filter.2 ⟨ho, ?_⟩, hid⟩
    rw [hcust]
    exact beq_self_eq_true cid

/-- Witness for C2 on concrete data: after deleting customer 1 the cascaded
item is gone and the database is still referentially intact. -/
theorem customer_delete_cascades_witness :
    sampleItem ∉ (sampleDB.deleteCustomer 1).order_items ∧
    (sampleDB.deleteCustomer 1).refIntact :=
  ⟨(customer_delete_cascades sampleDB 1).2.2.1 sampleItem (by decide)
      sampleOrder (by decide) (by decide) (by decide),
   (customer_delete_cascades sampleDB 1).2.2.2 (by decide)⟩

/-- C3: in every database state reachable from the empty database by store
operations, every Order references an existing Customer and every OrderItem
references an existing Order; moreover deleting an Order removes every
OrderItem referencing it. -/
theorem referential_integrity_invariant (ops : List Op) (db : DB)
    (h : DB.runOps DB.empty ops = some db) :
    (∀ o ∈ db.orders, o.customer ∈ db.customers) ∧
    (∀ it ∈ db.order_items, ∃ o ∈ db.orders, o.id = it.order) ∧
    (∀ oid : Nat, ∀ it ∈ (db.deleteOrder oid).order_items, it.order ≠ oid) := by
  obtain ⟨⟨hoc, hio⟩, _⟩ := inv_runOps ops DB.empty db empty_inv h
  refine ⟨hoc, hio, ?_⟩
  intro oid it hit
  simp only [DB.deleteOrder, List.mem_filter] at hit
  exact bne_iff_ne.1 hit.2

/-- Witness for C3: a concrete operation sequence reaching a concrete
database in which the integrity properties hold. -/
theorem referential_integrity_invariant_witness :
    DB.runOps DB.empty sampleOps = some sampleDB2 ∧
    ((∀ o ∈ sampleDB2.orders, o.customer ∈ sampleDB2.customers) ∧
     (∀ it ∈ sampleDB2.order_items, ∃ o ∈ sampleDB2.orders, o.id = it.order) ∧
     (∀ oid : Nat, ∀ it ∈ (sampleDB2.deleteOrder oid).order_items,
        it.order ≠ oid)) :=
  ⟨by decide, referential_integrity_invariant sampleOps sampleDB2 (by decide)⟩

/-- C4: deleting a User keeps every Order row: the items table and all other
tables are untouched, each order keeps every column except that a
`created_by` / `updated_by` reference to the deleted user becomes null. -/
theorem user_delete_sets_null_keeps_order (db : DB) (uid : Nat) :
    (db.deleteUser uid).order_items = db.order_items ∧
    (db.deleteUser uid).customers = db.customers ∧
    List.Forall₂ (fun o o' : OrderRow =>
      o'.id = o.id ∧
      o'.order_number = o.order_number ∧
      o'.status = o.status ∧
      o'.order_date = o.order_date ∧
      o'.subtotal = o.subtotal ∧
      o'.tax_amount = o.tax_amount ∧
      o'.shipping_amount = o.shipping_amount ∧
      o'.discount_amount = o.discount_amount ∧
      o'.total = o.total ∧
      o'.shipping_address = o.shipping_address ∧
      o'.billing_address = o.billing_address ∧
      o'.notes = o.notes ∧
      o'.created_at = o.created_at ∧
      o'.updated_at = o.updated_at ∧
      o'.customer = o.customer ∧
      o'.created_by = (if o.created_by = some uid then none else o.created_by) ∧
      o'.updated_by = (if o.updated_by = some uid then none else o.updated_by))
      db.orders (db.deleteUser uid).orders := by
  refine ⟨rfl, rfl, ?_⟩
  unfold DB.deleteUser
  simp only []
  rw [List.forall₂_map_right_iff, List.forall₂_same]
  intro o _
  unfold nullifyUser
  refine ⟨rfl, rfl, rfl, rfl, rfl, rfl, rfl, rfl, rfl, rfl, rfl, rfl, rfl,
    rfl, rfl, ?_, ?_⟩
  · by_cases hb : o.created_by = some uid
    · simp [hb]
    · simp [hb]
  · by_cases hb : o.updated_by = some uid
    · simp [hb]
    · simp [hb]

/-- C5: a successful Order insert whose creation input carries no explicit
status stores a new row whose status is `pending`. -/
theorem status_defaults_to_pending (db db' : DB) (inp : NewOrder)
    (idv now : Nat) (hs : inp.status = none)
    (hins : db.insertOrder inp idv now = some db') :
    ∃ r, db'.orders = db.orders ++ [r] ∧ r.status = "pending" := by
  unfold DB.insertOrder at hins
  cases hr : mkOrderRow inp idv now with
  | none => rw [hr] at hins; cases hins
  | some r =>
    rw [hr] at hins
    simp only [] at hins
    by_cases hcond : (r.validCols && r.fksOk db &&
        decide (∀ o ∈ db.orders, o.order_number ≠ r.order_number) &&
        decide (∀ o ∈ db.orders, o.id ≠ idv)) = true
    case neg => rw [if_neg hcond] at hins; cases hins
    case pos =>
      rw [if_pos hcond] at hins
      simp only [Option.some.injEq] at hins
      subst hins
      refine ⟨r, rfl, ?_⟩
      rw [(mkOrderRow_eq hr).2.1, hs]
      rfl

/-- Witness for C5: inserting `freshNewOrder` (which has no explicit status)
stores a row whose status is `pending`. -/
theorem status_defaults_to_pending_witness :
    freshNewOrder.status = none ∧
    sampleDB.insertOrder freshNewOrder 2 3 = some sampleDB3 ∧
    ∃ r, sampleDB3.orders = sampleDB.orders ++ [r] ∧ r.status = "pending" :=
  ⟨rfl, by decide,
   status_defaults_to_pending sampleDB sampleDB3 freshNewOrder 2 3 rfl
     (by decide)⟩

/-- C6: every write of an Order whose status is outside the declared
enumeration — an insert with an explicit out-of-enumeration status as well as
an update writing one — is rejected by the store at write time, exactly as a
write with a duplicate `order_number` or a missing mandatory `customer`
foreign key is. -/
theorem invalid_status_rejected (db : DB) (inp : NewOrder) (oid : Nat)
    (u : OrderUpdate) (idv now : Nat) :
    (∀ s, inp.status = some s → s ∉ statusChoices →
      db.insertOrder inp idv now = none) ∧
    (∀ s, u.status = some s → s ∉ statusChoices →
      db.updateOrder oid u now = none) ∧
    ((∃ o ∈ db.orders, o.order_number = inp.order_number) →
      db.insertOrder inp idv now = none) ∧
    (inp.customer ∉ db.customers → db.insertOrder inp idv now = none) := by
  refine ⟨?_, fun s hst hbad => updateOrder_invalid_status_none hst hbad,
    fun hdup => insertOrder_dup_none hdup,
    fun hmiss => insertOrder_missing_customer_none hmiss⟩
  intro s hst hbad
  unfold DB.insertOrder
  cases hr : mkOrderRow inp idv now with
  | none => rfl
  | some r =>
    simp only []
    have hrs : r.status = s := by
      rw [(mkOrderRow_eq hr).2.1, hst]
      rfl
    have hc : ¬((r.validCols && r.fksOk db &&
        decide (∀ o2 ∈ db.orders, o2.order_number ≠ r.order_number) &&
        decide (∀ o2 ∈ db.orders, o2.id ≠ idv)) = true) := by
      intro hcond
      simp only [Bool.and_eq_true] at hcond
      have hvalid := hcond.1.1.1
      unfold OrderRow.validCols at hvalid
      simp only [Bool.and_eq_true, decide_eq_true_eq] at hvalid
      rw [hrs] at hvalid
      exact hbad hvalid.1.1.1.1.1.2
    rw [if_neg hc]

/-- Witness for C6: the rejected insert and update writes with an invalid
status, plus the duplicate-number and missing-customer rejections, on
concrete data. -/
theorem invalid_status_rejected_witness :
    sampleDB.insertOrder badStatusNewOrder 2 3 = none ∧
    sampleDB.updateOrder 1 badStatusUpdate 5 = none ∧
    sampleDB.insertOrder dupNewOrder 2 3 = none ∧
    sampleDB.insertOrder orphanNewOrder 2 3 = none :=
  ⟨(invalid_status_rejected sampleDB badStatusNewOrder 1 badStatusUpdate
       2 3).1 "bogus" rfl (by decide),
   (invalid_status_rejected sampleDB badStatusNewOrder 1 badStatusUpdate
       2 3).2.1 "bogus" rfl (by decide),
   (invalid_status_rejected sampleDB dupNewOrder 1 badStatusUpdate 2 3).2.2.1
      ⟨sampleOrder, by decide, rfl⟩,
   (invalid_status_rejected sampleDB orphanNewOrder 1 badStatusUpdate
       2 3).2.2.2 (by decide)⟩

/-- C7: a successful Order update leaves the table's length unchanged and,
row by row, keeps `order_number`, `order_date` and `created_at` exactly as
they were. -/
theorem update_preserves_immutable_fields (db db' : DB) (oid : Nat)
    (u : OrderUpdate) (now : Nat)
    (hs : db.updateOrder oid u now = some db') :
    db'.orders.length = db.orders.length ∧
    List.Forall₂ (fun o o' : OrderRow =>
      o'.order_number = o.order_number ∧
      o'.order_date = o.order_date ∧
      o'.created_at = o.created_at) db.orders db'.orders := by
  unfold DB.updateOrder at hs
  split at hs
  case isFalse => cases hs
  case isTrue hcond =>
    simp only [Option.some.injEq] at hs
    subst hs
    refine ⟨by rw [List.length_map], ?_⟩
    rw [List.forall₂_map_right_iff, List.forall₂_same]
    intro o _
    cases hb : (o.id == oid) with
    | false => simp [hb]
    | true =>
      simp [hb, applyOrderUpdate_order_number, applyOrderUpdate_order_date,
        applyOrderUpdate_created_at]

/-- Witness for C7: a concrete successful update keeps the immutable
columns. -/
theorem update_preserves_immutable_fields_witness :
    sampleDB.updateOrder 1 sampleUpdate 5 = some sampleDB4 ∧
    (sampleDB4.orders.length = sampleDB.orders.length ∧
     List.Forall₂ (fun o o' : OrderRow =>
       o'.order_number = o.order_number ∧
       o'.order_date = o.order_date ∧
       o'.created_at = o.created_at) sampleDB.orders sampleDB4.orders) :=
  ⟨by decide,
   update_preserves_immutable_fields sampleDB sampleDB4 1 sampleUpdate 5
     (by decide)⟩

/-- C8: in every database state reachable from the empty database, every
stored monetary value is a valid decimal(10,2) and every stored string
respects its declared length limit (status 20, order number 50, SKU 100,
product name 200). -/
theorem column_semantics_invariant (ops : List Op) (db : DB)
    (h : DB.runOps DB.empty ops = some db) :
    (∀ o ∈ db.orders,
      o.subtotal.valid = true ∧ o.tax_amount.valid = true ∧
      o.shipping_amount.valid = true ∧ o.discount_amount.valid = true ∧
      o.total.valid = true ∧
      o.order_number.length ≤ orderNumberMaxLength ∧
      o.status.length ≤ statusMaxLength) ∧
    (∀ it ∈ db.order_items,
      it.unit_price.valid = true ∧ it.total_price.valid = true ∧
      it.product_name.length ≤ productNameMaxLength ∧
      ∀ s, it.product_sku = some s → s.length ≤ productSkuMaxLength) := by
  obtain ⟨_, hcov, hciv⟩ := inv_runOps ops DB.empty db empty_inv h
  constructor
  · intro o ho
    have hv := hcov o ho
    unfold OrderRow.validCols at hv
    simp only [Bool.and_eq_true, decide_eq_true_eq] at hv
    exact ⟨hv.1.1.1.1.2, hv.1.1.1.2, hv.1.1.2, hv.1.2, hv.2,
      hv.1.1.1.1.1.1.1, hv.1.1.1.1.1.1.2⟩
  · intro it hit
    have hv := hciv it hit
    unfold OrderItemRow.validCols at hv
    simp only [Bool.and_eq_true, decide_eq_true_eq] at hv
    refine ⟨hv.1.2, hv.2, hv.1.1.1.1, ?_⟩
    intro s hsku
    have hm := hv.1.1.1.2
    rw [hsku] at hm
    simpa using hm

/-- Witness for C8: the concrete reachable database satisfies the column
bounds. -/
theorem column_semantics_invariant_witness :
    DB.runOps DB.empty sampleOps = some sampleDB2 ∧
    ((∀ o ∈ sampleDB2.orders,
       o.subtotal.valid = true ∧ o.tax_amount.valid = true ∧
       o.shipping_amount.valid = true ∧ o.discount_amount.valid = true ∧
       o.total.valid = true ∧
       o.order_number.length ≤ orderNumberMaxLength ∧
       o.status.length ≤ statusMaxLength) ∧
     (∀ it ∈ sampleDB2.order_items,
       it.unit_price.valid = true ∧ it.total_price.valid = true ∧
       it.product_name.length ≤ productNameMaxLength ∧
       ∀ s, it.product_sku = some s → s.length ≤ productSkuMaxLength)) :=
  ⟨by decide, column_semantics_invariant sampleOps sampleDB2 (by decide)⟩

/-- C9: an OrderItem's stored columns are point-in-time copies: any sequence
of later product-catalog changes leaves every stored OrderItem row exactly as
it was, an item insert stores the same values whether or not catalog changes
happened before it, and the stored copies are exactly the values given at
order time. -/
theorem order_item_point_in_time_copy (w : World) (cops : List CatalogOp) :
    (w.runCatalogOps cops).db.order_items = w.db.order_items ∧
    (∀ (inp : NewOrderItem) (idv now : Nat),
      (w.runCatalogOps cops).db.insertOrderItem inp idv now =
        w.db.insertOrderItem inp idv now) ∧
    (∀ (inp : NewOrderItem) (idv now : Nat),
      (mkOrderItemRow inp idv now).product_name = inp.product_name ∧
      (mkOrderItemRow inp idv now).product_sku = inp.product_sku ∧
      (mkOrderItemRow inp idv now).unit_price = inp.unit_price ∧
      (mkOrderItemRow inp idv now).total_price = inp.total_price) := by
  have hdb : (w.runCatalogOps cops).db = w.db := by
    induction cops generalizing w with
    | nil => rfl
    | cons c cs ih =>
      rw [World.runCatalogOps, ih]
      cases c <;> rfl
  exact ⟨by rw [hdb], fun inp idv now => by rw [hdb],
    fun inp idv now => ⟨rfl, rfl, rfl, rfl⟩⟩

/-- C10: an Order creation without explicit monetary values defaults
`tax_amount`, `shipping_amount` and `discount_amount` to 0, while a creation
missing `subtotal` or `total` is rejected. -/
theorem monetary_defaults_and_required (inp : NewOrder) (idv now : Nat) :
    (inp.subtotal = none ∨ inp.total = none →
      mkOrderRow inp idv now = none ∧
      ∀ db : DB, db.insertOrder inp idv now = none) ∧
    (∀ r, mkOrderRow inp idv now = some r →
      (inp.tax_amount = none → r.tax_amount = moneyDefault) ∧
      (inp.shipping_amount = none → r.shipping_amount = moneyDefault) ∧
      (inp.discount_amount = none → r.discount_amount = moneyDefault)) ∧
    moneyDefault.cents = 0 := by
  refine ⟨?_, ?_, rfl⟩
  · intro hmiss
    have hmk : mkOrderRow inp idv now = none := by
      unfold mkOrderRow
      rcases hsub : inp.subtotal with _ | st <;>
        rcases htot : inp.total with _ | tt
      · rfl
      · rfl
      · rfl
      · rcases hmiss with hm | hm
        · rw [hsub] at hm; cases hm
        · rw [htot] at hm; cases hm
    refine ⟨hmk, fun db => ?_⟩
    unfold DB.insertOrder
    rw [hmk]
  · intro r hr
    have he := mkOrderRow_eq hr
    refine ⟨fun h => ?_, fun h => ?_, fun h => ?_⟩
    · rw [he.2.2.1, h]; rfl
    · rw [he.2.2.2.1, h]; rfl
    · rw [he.2.2.2.2.1, h]; rfl

/-- Witness for C10: a creation without subtotal and total is rejected, and
a concrete creation without tax defaults it to 0. -/
theorem monetary_defaults_and_required_witness :
    noTotalsNewOrder.subtotal = none ∧
    mkOrderRow noTotalsNewOrder 2 3 = none ∧
    sampleDB.insertOrder noTotalsNewOrder 2 3 = none ∧
    freshNewOrder.tax_amount = none ∧
    mkOrderRow freshNewOrder 2 3 = some sampleOrder2 ∧
    sampleOrder2.tax_amount = moneyDefault :=
  ⟨rfl,
   ((monetary_defaults_and_required noTotalsNewOrder 2 3).1 (Or.inl rfl)).1,
   ((monetary_defaults_and_required noTotalsNewOrder 2 3).1
       (Or.inl rfl)).2 sampleDB,
   rfl,
   by decide,
   ((monetary_defaults_and_required freshNewOrder 2 3).2.1 sampleOrder2
       (by decide)).1 rfl⟩

end OrdersSchema
